import Mathlib

/-!
Verification of the anti-corruption layer in `src/lib.rs` (crate
`vo_in_rust`): a shallow embedding of the DTO type, the domain smart
constructors (`Username`, `Email`, `Age`), the loose-timestamp resolver
`parse_loose_time`, and the boundary mapper `Acl` (`to_domain` / `to_dto`).

Machine integers of the source (`i64`, `u16`, `u8`, `i128`) are embedded as
`Int`/`Nat`; none of the modelled operations can overflow on the values the
source accepts (timestamps are range-checked before use, `u16` parsing is
checked against 65535 exactly as Rust's `FromStr` does).

Behavior of the external crates the source calls (`time`,
`email_address`, `core::str::parse`) is embedded from those libraries'
documented semantics, since their sources are dependencies of the
repository rather than part of it; each such definition carries a comment
saying what it models.
-/

namespace VO

/-- One decimal digit of a character, if it is one (models Rust
`char::to_digit(10)` as used implicitly by integer parsing). -/
def digitVal (c : Char) : Option Nat :=
  if '0' ≤ c ∧ c ≤ '9' then some (c.toNat - 48) else none

/-- Models Rust `str::trim`: drop leading and trailing whitespace.
(Rust trims Unicode `White_Space`; every input the claims exercise uses
ASCII whitespace, where `Char.isWhitespace` agrees.) -/
def rustTrim (s : String) : String :=
  String.mk (((s.data.dropWhile Char.isWhitespace).reverse.dropWhile Char.isWhitespace).reverse)

/-- A nonempty all-digit character list read as a base-10 number. -/
def parseDecimalDigits (cs : List Char) : Option Nat :=
  if cs = [] then none
  else if cs.all (fun c => (digitVal c).isSome) then
    some (cs.foldl (fun a c => a * 10 + (digitVal c).getD 0) 0)
  else none

/-- Models Rust `str::parse::<u16>` (`u16::from_str`): an optional leading
`+`, then one or more decimal digits, no other characters; values above
`u16::MAX = 65535` are a `PosOverflow` error. A leading `-` is not a digit,
so any negative input fails. -/
def parseU16 (s : String) : Option Nat :=
  let cs := match s.data with
    | '+' :: rest => rest
    | cs => cs
  match parseDecimalDigits cs with
  | some n => if n ≤ 65535 then some n else none
  | none => none

/-- The error enum `AclError` of the source. -/
inductive AclError where
  | Missing (field : String)
  | UsernameEmpty
  | InvalidEmail
  | InvalidAge
  | InvalidCreatedAt
deriving DecidableEq, Repr

/-- The untagged timestamp union `LooseTime` of the source. -/
inductive LooseTime where
  | UnixSecs (s : Int)
  | Rfc3339 (s : String)
deriving DecidableEq, Repr

/-- Embedding of `time::OffsetDateTime`: the instant as nanoseconds since
the Unix epoch, plus the stored UTC offset in seconds.  The `time` crate
stores a civil date-time with an offset; the pair (instant, offset)
determines it, and all comparisons (`PartialEq`) in the crate are on the
instant. -/
structure OffsetDateTime where
  utcNanos : Int
  offsetSecs : Int
deriving DecidableEq, Repr

/-- Smallest Unix timestamp representable by `time::OffsetDateTime`
(default features): `-9999-01-01T00:00:00Z`. -/
def minUnixTimestamp : Int := -377705116800

/-- Largest Unix timestamp representable by `time::OffsetDateTime`
(default features): `9999-12-31T23:59:59Z`. -/
def maxUnixTimestamp : Int := 253402300799

/-- The instants whose whole-second timestamp `from_unix_timestamp`
accepts: the UTC instant lies between `-9999-01-01T00:00:00Z` and
`9999-12-31T23:59:59.999999999Z`.  This is NOT the invariant of the Rust
type (see `OffsetDateTime.repOk`): `time::OffsetDateTime` bounds the
stored local civil datetime, so values stored with a non-UTC offset can
denote instants up to one offset (under 26 hours) outside this range. -/
def OffsetDateTime.instantInUnixRange (d : OffsetDateTime) : Prop :=
  minUnixTimestamp * 1000000000 ≤ d.utcNanos ∧
    d.utcNanos ≤ (maxUnixTimestamp + 1) * 1000000000 - 1

instance (d : OffsetDateTime) : Decidable d.instantInUnixRange :=
  inferInstanceAs (Decidable (_ ∧ _))

/-- The invariant actually carried by `time::OffsetDateTime` (default
features): the stored LOCAL civil datetime — the instant shifted by the
stored offset — lies within years `-9999..=9999`, and the stored
`UtcOffset` is within `±25:59:59`.  A boundary civil datetime with a
non-UTC offset (for example `9999-12-31 23:59:59 -01:00`) satisfies this
while its UTC instant falls outside `instantInUnixRange`. -/
def OffsetDateTime.repOk (d : OffsetDateTime) : Prop :=
  minUnixTimestamp * 1000000000 ≤ d.utcNanos + d.offsetSecs * 1000000000 ∧
    d.utcNanos + d.offsetSecs * 1000000000 ≤ (maxUnixTimestamp + 1) * 1000000000 - 1 ∧
    -93599 ≤ d.offsetSecs ∧ d.offsetSecs ≤ 93599

instance (d : OffsetDateTime) : Decidable d.repOk :=
  inferInstanceAs (Decidable (_ ∧ _ ∧ _ ∧ _))

/-- Models `OffsetDateTime::unix_timestamp`: whole seconds of the instant,
discarding the sub-second part (the crate computes it from the civil
fields, which amounts to flooring the instant to seconds). -/
def OffsetDateTime.unix_timestamp (d : OffsetDateTime) : Int :=
  Int.fdiv d.utcNanos 1000000000

/-- Value equality of instants: models `PartialEq for OffsetDateTime`,
which compares the instants two values denote, not their stored offsets. -/
def OffsetDateTime.instantEq (a b : OffsetDateTime) : Prop :=
  a.utcNanos = b.utcNanos

instance (a b : OffsetDateTime) : Decidable (a.instantEq b) :=
  inferInstanceAs (Decidable (_ = _))

/-- Models `OffsetDateTime::from_unix_timestamp`: succeeds exactly when the
seconds value lies in the representable range, yielding the instant with
the UTC offset. -/
def from_unix_timestamp (s : Int) : Option OffsetDateTime :=
  if minUnixTimestamp ≤ s ∧ s ≤ maxUnixTimestamp then
    some { utcNanos := s * 1000000000, offsetSecs := 0 }
  else none

/-- Leap year of the proleptic Gregorian calendar. -/
def isLeapYear (y : Nat) : Bool :=
  y % 4 = 0 && (y % 100 != 0 || y % 400 = 0)

/-- Length of a month (`m` is 1-based). -/
def daysInMonth (y m : Nat) : Nat :=
  if m = 2 then (if isLeapYear y then 29 else 28)
  else if m = 4 ∨ m = 6 ∨ m = 9 ∨ m = 11 then 30
  else 31

/-- Days from the Unix epoch to civil date `y-m-d` in the proleptic
Gregorian calendar (the standard era-based algorithm, as used inside the
`time` crate's date arithmetic). -/
def daysFromCivil (y m d : Nat) : Int :=
  let ya : Int := if m ≤ 2 then (y : Int) - 1 else (y : Int)
  let era : Int := Int.fdiv ya 400
  let yoe : Int := ya - era * 400
  let mp : Int := ((m : Int) + 9) % 12
  let doy : Int := Int.fdiv (153 * mp + 2) 5 + (d : Int) - 1
  let doe : Int := yoe * 365 + Int.fdiv yoe 4 - Int.fdiv yoe 100 + doy
  era * 146097 + doe - 719468

/-- Read exactly `k` decimal digits, most significant first. -/
def readFixedDigits : Nat → Nat → List Char → Option (Nat × List Char)
  | 0, acc, cs => some (acc, cs)
  | k + 1, acc, cs =>
    match cs with
    | [] => none
    | c :: rest =>
      match digitVal c with
      | some d => readFixedDigits k (acc * 10 + d) rest
      | none => none

/-- Require a specific next character. -/
def expectChar (c : Char) : List Char → Option (List Char)
  | [] => none
  | x :: rest => if x = c then some rest else none

/-- Consume a maximal run of digits. -/
def takeDigitRun : List Char → (List Nat × List Char)
  | [] => ([], [])
  | c :: rest =>
    match digitVal c with
    | some d =>
      let (ds, r) := takeDigitRun rest
      (d :: ds, r)
    | none => ([], c :: rest)

/-- Nanoseconds denoted by a fractional-second digit run (first nine digits
are significant). -/
def fracNanos (ds : List Nat) : Nat :=
  ((ds.take 9).foldl (fun a d => a * 10 + d) 0) * 10 ^ (9 - min ds.length 9)

/-- Parse the RFC 3339 numeric UTC offset (`Z`/`z` or `±HH:MM`), returning
it in seconds; hour and minute are range-checked as the `time` crate does. -/
def readRfc3339Offset : List Char → Option (Int × List Char)
  | 'Z' :: rest => some (0, rest)
  | 'z' :: rest => some (0, rest)
  | '+' :: rest =>
    match readFixedDigits 2 0 rest with
    | some (h, r1) =>
      match expectChar ':' r1 with
      | some r2 =>
        match readFixedDigits 2 0 r2 with
        | some (mi, r3) =>
          if h ≤ 23 ∧ mi ≤ 59 then some ((h * 3600 + mi * 60 : Nat), r3) else none
        | none => none
      | none => none
    | none => none
  | '-' :: rest =>
    match readFixedDigits 2 0 rest with
    | some (h, r1) =>
      match expectChar ':' r1 with
      | some r2 =>
        match readFixedDigits 2 0 r2 with
        | some (mi, r3) =>
          if h ≤ 23 ∧ mi ≤ 59 then some (-((h * 3600 + mi * 60 : Nat) : Int), r3) else none
        | none => none
      | none => none
    | none => none
  | _ => none

/-- Read a calendar date `YYYY-MM-DD` (shared shape of the strict and
fallback formats). -/
def readDate (cs : List Char) : Option (Nat × Nat × Nat × List Char) :=
  match readFixedDigits 4 0 cs with
  | none => none
  | some (y, r0) =>
    match expectChar '-' r0 with
    | none => none
    | some r1 =>
      match readFixedDigits 2 0 r1 with
      | none => none
      | some (mo, r2) =>
        match expectChar '-' r2 with
        | none => none
        | some r3 =>
          match readFixedDigits 2 0 r3 with
          | none => none
          | some (d, r4) => some (y, mo, d, r4)

/-- Read a clock time `hh:mm:ss` (shared shape of the strict and fallback
formats). -/
def readClock (cs : List Char) : Option (Nat × Nat × Nat × List Char) :=
  match readFixedDigits 2 0 cs with
  | none => none
  | some (h, r0) =>
    match expectChar ':' r0 with
    | none => none
    | some r1 =>
      match readFixedDigits 2 0 r1 with
      | none => none
      | some (mi, r2) =>
        match expectChar ':' r2 with
        | none => none
        | some r3 =>
          match readFixedDigits 2 0 r3 with
          | none => none
          | some (se, r4) => some (h, mi, se, r4)

/-- Optional fractional-second part: a dot followed by at least one digit,
or nothing. -/
def readOptionalFrac (cs : List Char) : Option (Nat × List Char) :=
  match cs with
  | '.' :: rest =>
    match takeDigitRun rest with
    | ([], _) => none
    | (ds, r2) => some (fracNanos ds, r2)
  | _ => some (0, cs)

/-- Range validation common to both formats: calendar-valid month and day
and in-range clock fields, as the `time` crate enforces when a `Parsed` is
turned into `Date` and `Time` components. -/
def fieldsInRange (y mo d h mi se : Nat) : Bool :=
  decide (1 ≤ mo ∧ mo ≤ 12 ∧ 1 ≤ d ∧ d ≤ daysInMonth y mo ∧
    h ≤ 23 ∧ mi ≤ 59 ∧ se ≤ 59)

/-- The instant (in nanoseconds since the epoch) of civil fields plus an
offset and a sub-second part. -/
def civilToNanos (y mo d h mi se : Nat) (offSecs : Int) (nano : Nat) : Int :=
  (daysFromCivil y mo d * 86400 + ((h * 3600 + mi * 60 + se : Nat) : Int)
    - offSecs) * 1000000000 + (nano : Int)

/-- Models the strict parser `well_known::Rfc3339` of the `time` crate as
used through `OffsetDateTime::parse`: `YYYY-MM-DDThh:mm:ss[.frac](Z|±HH:MM)`
with `T`/`Z` case-insensitive, four-digit year, calendar-validated month
and day, range-checked time fields, and the whole input consumed. -/
def parseRfc3339 (s : String) : Option OffsetDateTime :=
  match readDate s.data with
  | none => none
  | some (y, mo, d, r0) =>
    match r0 with
    | [] => none
    | c :: r1 =>
      if c = 'T' ∨ c = 't' then
        match readClock r1 with
        | none => none
        | some (h, mi, se, r2) =>
          match readOptionalFrac r2 with
          | none => none
          | some (nano, r3) =>
            match readRfc3339Offset r3 with
            | none => none
            | some (offSecs, r4) =>
              if r4 = [] ∧ fieldsInRange y mo d h mi se then
                some { utcNanos := civilToNanos y mo d h mi se offSecs nano
                     , offsetSecs := offSecs }
              else none
      else none

/-- The field set collected by `time::parsing::Parsed` before conversion to
a concrete type; only the fields the fallback format can mention, plus the
offset fields the conversion to `OffsetDateTime` demands. -/
structure ParsedFields where
  year : Option Nat
  month : Option Nat
  day : Option Nat
  hour : Option Nat
  minute : Option Nat
  second : Option Nat
  offsetHour : Option Int
  offsetMinute : Option Nat
deriving DecidableEq, Repr

/-- Models parsing with the fallback description
`format_description!("[year]-[month]-[day] [hour]:[minute]:[second] UTC")`:
each numeric component is read as two (four for the year) digits, the
literals (`-`, `:`, the spaces, and the text `UTC`) are matched verbatim,
and the collected fields are returned.  The description contains no offset
component, so the offset fields of the result are always `none`. -/
def parseAltFormat (s : String) : Option ParsedFields :=
  match readDate s.data with
  | none => none
  | some (y, mo, d, r0) =>
    match expectChar ' ' r0 with
    | none => none
    | some r1 =>
      match readClock r1 with
      | none => none
      | some (h, mi, se, r2) =>
        match r2 with
        | ' ' :: 'U' :: 'T' :: 'C' :: r3 =>
          if r3 = [] ∧ fieldsInRange y mo d h mi se then
            some { year := some y, month := some mo, day := some d
                 , hour := some h, minute := some mi, second := some se
                 , offsetHour := none, offsetMinute := none }
          else none
        | _ => none

/-- Models `TryFrom<Parsed> for OffsetDateTime` of the `time` crate: the
conversion needs date, time, and a UTC offset; when the parsed fields hold
no offset hour it fails with `InsufficientInformation`. -/
def tryIntoOffsetDateTime (p : ParsedFields) : Option OffsetDateTime :=
  match p.year, p.month, p.day, p.hour, p.minute, p.second, p.offsetHour with
  | some y, some mo, some d, some h, some mi, some se, some oh =>
    let om : Int := (p.offsetMinute.getD 0 : Nat)
    let offSecs : Int := oh * 3600 + (if oh < 0 then -om * 60 else om * 60)
    some { utcNanos :=
             (daysFromCivil y mo d * 86400 + ((h * 3600 + mi * 60 + se : Nat) : Int)
               - offSecs) * 1000000000
         , offsetSecs := offSecs }
  | _, _, _, _, _, _, _ => none

/-- The function `parse_loose_time` of the source: a `UnixSecs` value goes
through `from_unix_timestamp`; an `Rfc3339` string is tried against the
strict RFC 3339 parser first, then against the fallback fixed format, and
`InvalidCreatedAt` is returned when both fail. -/
def parse_loose_time : LooseTime → Except AclError OffsetDateTime
  | LooseTime.UnixSecs s =>
    match from_unix_timestamp s with
    | some dt => Except.ok dt
    | none => Except.error AclError.InvalidCreatedAt
  | LooseTime.Rfc3339 s =>
    match parseRfc3339 s with
    | some dt => Except.ok dt
    | none =>
      match (parseAltFormat s).bind tryIntoOffsetDateTime with
      | some dt => Except.ok dt
      | none => Except.error AclError.InvalidCreatedAt

/-- The DTO struct `UserDto` of the source: four optional fields. -/
structure UserDto where
  user_name : Option String
  user_age : Option String
  email_address : Option String
  created_at : Option LooseTime
deriving DecidableEq, Repr

/-- The newtype `Username(String)`: the smart constructor `Username::new`
is the only way to build one, so every value carries the invariant that
its raw text is nonempty after trimming (in Rust this is enforced by field
privacy; here by the proof field). -/
structure Username where
  raw : String
  trimNonempty : rustTrim raw ≠ ""

/-- The constructor `Username::new` of the source: reject input whose trim
is empty, otherwise store the original untrimmed string. -/
def Username.new (s : String) : Except AclError Username :=
  if h : rustTrim s = "" then Except.error AclError.UsernameEmpty
  else Except.ok ⟨s, h⟩

/-- `Username::as_str`: the stored (original) string. -/
def Username.as_str (u : Username) : String := u.raw

/-- Characters the embedded email check accepts in the local part. -/
def isEmailLocalChar (c : Char) : Bool :=
  c.isAlphanum || c = '.' || c = '_' || c = '-' || c = '+'

/-- Characters the embedded email check accepts in the domain part. -/
def isEmailDomainChar (c : Char) : Bool :=
  c.isAlphanum || c = '.' || c = '-'

/-- Models the syntactic check of the `email_address` crate
(`EmailAddress::parse`), an external dependency: the address must split at
a single `@` into a nonempty local part of at most 64 characters and a
nonempty domain, each over its allowed character set.  The crate's full
grammar accepts more (quoted locals, domain literals); the simplification
is inessential here because no settled claim depends on the grammar's
fine structure — only on the check being a fixed pure predicate that
accepts the plainly valid addresses and rejects the plainly invalid ones
used below. -/
def isValidEmail (s : String) : Bool :=
  match s.data.splitOn '@' with
  | [l, d] =>
    !l.isEmpty && l.length ≤ 64 && l.all isEmailLocalChar &&
      !d.isEmpty && d.all isEmailDomainChar
  | _ => false

/-- The newtype `Email(EmailAddress)`: carries the invariant that its raw
text passed the syntactic check, and (as in the crate) stores the original
input text. -/
structure Email where
  raw : String
  validRaw : isValidEmail raw = true

/-- `Email::parse` of the source: delegate to the syntactic check, mapping
rejection to `InvalidEmail`. -/
def Email.parse (s : String) : Except AclError Email :=
  if h : isValidEmail s = true then Except.ok ⟨s, h⟩
  else Except.error AclError.InvalidEmail

/-- `Email::as_str`: the stored text of the address. -/
def Email.as_str (e : Email) : String := e.raw

/-- The newtype `Age(NonZeroU8)`: a byte that is not zero, so a value in
`[1, 255]`. -/
structure Age where
  val : Nat
  one_le : 1 ≤ val
  le_255 : val ≤ 255

/-- `Age::parse_str` of the source: trim, parse as `u16`, narrow to `u8`
(rejecting values above 255), reject zero via `NonZeroU8::new`; every
failure is `InvalidAge`. -/
def Age.parse_str (s : String) : Except AclError Age :=
  match parseU16 (rustTrim s) with
  | none => Except.error AclError.InvalidAge
  | some n =>
    if h255 : n ≤ 255 then
      if h1 : 1 ≤ n then Except.ok ⟨n, h1, h255⟩
      else Except.error AclError.InvalidAge
    else Except.error AclError.InvalidAge

/-- `Age::get`: the underlying integer. -/
def Age.get (a : Age) : Nat := a.val

/-- The domain aggregate `User` of the source. -/
structure User where
  username : Username
  age : Age
  email : Email
  created_at : OffsetDateTime

/-- `Option::ok_or` as the source uses it on each DTO field. -/
def okOr {α : Type} (o : Option α) (e : AclError) : Except AclError α :=
  match o with
  | some a => Except.ok a
  | none => Except.error e

/-- `Acl::to_domain` of the source: presence checks in source order
(`user_name`, `email_address`, `user_age`, `created_at`, each via
`ok_or(Missing(..))?`), then value validation in source order (username,
email, age, timestamp, each via `?`), then the aggregate. -/
def Acl.to_domain (dto : UserDto) : Except AclError User :=
  match okOr dto.user_name (AclError.Missing "user_name") with
  | Except.error e => Except.error e
  | Except.ok username_raw =>
    match okOr dto.email_address (AclError.Missing "email_address") with
    | Except.error e => Except.error e
    | Except.ok email_raw =>
      match okOr dto.user_age (AclError.Missing "user_age") with
      | Except.error e => Except.error e
      | Except.ok age_raw =>
        match okOr dto.created_at (AclError.Missing "created_at") with
        | Except.error e => Except.error e
        | Except.ok created_raw =>
          match Username.new username_raw with
          | Except.error e => Except.error e
          | Except.ok username =>
            match Email.parse email_raw with
            | Except.error e => Except.error e
            | Except.ok email =>
              match Age.parse_str age_raw with
              | Except.error e => Except.error e
              | Except.ok age =>
                match parse_loose_time created_raw with
                | Except.error e => Except.error e
                | Except.ok created_at =>
                  Except.ok { username := username, age := age
                            , email := email, created_at := created_at }

/-- Models `u8::to_string` (via `Display`): decimal digits, no sign. -/
def u8_to_string (n : Nat) : String := Nat.repr n

/-- `Acl::to_dto` of the source: total; all four fields `Some`, username
and email verbatim, age as decimal text, timestamp as `UnixSecs` of
`unix_timestamp()`. -/
def Acl.to_dto (user : User) : UserDto :=
  { user_name := some user.username.as_str
  , user_age := some (u8_to_string user.age.get)
  , email_address := some user.email.as_str
  , created_at := some (LooseTime.UnixSecs user.created_at.unix_timestamp) }

/-- A `User` built directly from validated components whose `created_at`
carries a sub-second part (half a second past the epoch). -/
def user0 : User :=
  { username := ⟨"sigma", by decide⟩
  , age := ⟨7, by decide, by decide⟩
  , email := ⟨"sigma@example.com", by decide⟩
  , created_at := ⟨500000000, 0⟩ }

/-- A `User` whose `created_at` is a whole-second instant stored with a
non-UTC offset (+01:00). -/
def user2 : User :=
  { username := ⟨"sigma", by decide⟩
  , age := ⟨7, by decide, by decide⟩
  , email := ⟨"sigma@example.com", by decide⟩
  , created_at := ⟨1234567890000000000, 3600⟩ }

/-- A `User` with a sub-second `created_at` well inside the representable
range. -/
def user1 : User :=
  { username := ⟨"sigma", by decide⟩
  , age := ⟨42, by decide, by decide⟩
  , email := ⟨"sigma@example.com", by decide⟩
  , created_at := ⟨1700000000500000000, 0⟩ }

/-- The concrete `Username` value produced by `Username::new(" a ")`. -/
def usernameA : Username := ⟨" a ", by decide⟩

/-- A `User` that safe Rust can build (its `created_at` satisfies the
actual `time::OffsetDateTime` invariant `repOk`): the boundary civil
datetime `9999-12-31 23:59:59` stored at offset `-01:00`, whose UTC
instant has Unix timestamp `253402300799 + 3600 = 253402304399` — outside
the range `from_unix_timestamp` accepts. -/
def userBoundary : User :=
  { username := ⟨"sigma", by decide⟩
  , age := ⟨7, by decide, by decide⟩
  , email := ⟨"sigma@example.com", by decide⟩
  , created_at := ⟨253402304399000000000, -3600⟩ }

/-!  Helper lemmas shared by several claims. -/

set_option maxRecDepth 4000 in
/-- Rendering a byte in `[0, 255]` as decimal text and re-parsing it as
the trimmed `u16` parse recovers the byte. -/
theorem parseU16_repr_roundtrip :
    ∀ n < 256, parseU16 (rustTrim (u8_to_string n)) = some n := by decide

/-- The whole-second timestamp of an instant in the Unix range is
accepted by `from_unix_timestamp`. -/
theorem unix_timestamp_in_range (d : OffsetDateTime) (h : d.instantInUnixRange) :
    minUnixTimestamp ≤ d.unix_timestamp ∧ d.unix_timestamp ≤ maxUnixTimestamp := by
  obtain ⟨h1, h2⟩ := h
  unfold OffsetDateTime.unix_timestamp
  rw [Int.fdiv_eq_ediv _ (by norm_num)]
  constructor
  · have hle := Int.ediv_le_ediv (show (0 : Int) < 1000000000 by norm_num) h1
    rwa [show minUnixTimestamp * 1000000000 / 1000000000 = minUnixTimestamp by decide]
      at hle
  · have hle := Int.ediv_le_ediv (show (0 : Int) < 1000000000 by norm_num) h2
    rwa [show ((maxUnixTimestamp + 1) * 1000000000 - 1) / 1000000000 = maxUnixTimestamp
      by decide] at hle

/-- `from_unix_timestamp` succeeds on the whole-second timestamp of any
instant in the Unix range. -/
theorem from_unix_roundtrip (d : OffsetDateTime) (h : d.instantInUnixRange) :
    from_unix_timestamp d.unix_timestamp =
      some ⟨d.unix_timestamp * 1000000000, 0⟩ := by
  unfold from_unix_timestamp
  rw [if_pos (unix_timestamp_in_range d h)]

/-- Resolving the `UnixSecs` encoding that `to_dto` emits for an instant
in the Unix range succeeds. -/
theorem created_revalidates (d : OffsetDateTime) (h : d.instantInUnixRange) :
    parse_loose_time (LooseTime.UnixSecs d.unix_timestamp) =
      Except.ok ⟨d.unix_timestamp * 1000000000, 0⟩ := by
  simp only [parse_loose_time]
  rw [from_unix_roundtrip d h]

/-- The raw text stored in a `Username` passes `Username::new` again. -/
theorem username_revalidates (u : Username) :
    Username.new u.raw = Except.ok u := by
  unfold Username.new
  rw [dif_neg u.trimNonempty]

/-- The raw text stored in an `Email` passes `Email::parse` again. -/
theorem email_revalidates (e : Email) :
    Email.parse e.raw = Except.ok e := by
  unfold Email.parse
  rw [dif_pos e.validRaw]

/-- The decimal rendering of an `Age` passes `Age::parse_str` again. -/
theorem age_revalidates (a : Age) :
    Age.parse_str (u8_to_string a.get) = Except.ok a := by
  have h := parseU16_repr_roundtrip a.val (lt_of_le_of_lt a.le_255 (by norm_num))
  unfold Age.parse_str Age.get
  rw [h]
  simp [a.le_255, a.one_le]

/-- A successful fallback-format field collection never carries an offset
hour, so its conversion to an `OffsetDateTime` always fails. -/
theorem altFormat_never_resolves (s : String) :
    (parseAltFormat s).bind tryIntoOffsetDateTime = none := by
  unfold parseAltFormat
  repeat' split
  all_goals simp [tryIntoOffsetDateTime]

/-!  The claims. -/

/-- C3 counterexample: the strict RFC 3339 parse of
`2024-12-25T12:34:56Z` does not yield Unix timestamp 1735137296 (the
actual instant of that string is 1735130096). -/
theorem c3_counterexample :
    (parse_loose_time (LooseTime.Rfc3339 "2024-12-25T12:34:56Z")).map
      OffsetDateTime.unix_timestamp ≠ Except.ok 1735137296 := by
  intro hcontra
  have : (1735130096 : Int) = 1735137296 := Except.ok.inj hcontra
  exact absurd this (by decide)

/-- C3 (amended): `parse_loose_time(Rfc3339("2024-12-25T12:34:56Z"))`
succeeds via the strict RFC 3339 parser, and the resulting instant has
Unix timestamp 1735130096. -/
theorem c3_strict_parse_value :
    parseRfc3339 "2024-12-25T12:34:56Z" = some ⟨1735130096000000000, 0⟩ ∧
    parse_loose_time (LooseTime.Rfc3339 "2024-12-25T12:34:56Z") =
      Except.ok ⟨1735130096000000000, 0⟩ ∧
    OffsetDateTime.unix_timestamp ⟨1735130096000000000, 0⟩ = 1735130096 :=
  ⟨rfl, rfl, rfl⟩

/-- C2: the fallback fixed format does match the text
`2024-12-25 12:34:56 UTC` and collects all six date-time fields, but the
format carries no UTC-offset component, so the conversion of the collected
fields to an `OffsetDateTime` fails and `parse_loose_time` returns
`InvalidCreatedAt` — the fallback path can never produce a value, contrary
to the spec and to the source's own comment. -/
theorem c2_fallback_cannot_resolve :
    parseAltFormat "2024-12-25 12:34:56 UTC" =
      some { year := some 2024, month := some 12, day := some 25
           , hour := some 12, minute := some 34, second := some 56
           , offsetHour := none, offsetMinute := none } ∧
    ((parseAltFormat "2024-12-25 12:34:56 UTC").bind tryIntoOffsetDateTime
      = none) ∧
    parse_loose_time (LooseTime.Rfc3339 "2024-12-25 12:34:56 UTC") =
      Except.error AclError.InvalidCreatedAt :=
  ⟨rfl, altFormat_never_resolves _, rfl⟩

/-- C9: resolving `UnixSecs(1700000000)` and resolving
`Rfc3339("2023-11-14T22:13:20Z")` both succeed and yield the identical
instant. -/
theorem c9_untagged_equivalence :
    parse_loose_time (LooseTime.UnixSecs 1700000000) =
      Except.ok ⟨1700000000000000000, 0⟩ ∧
    parse_loose_time (LooseTime.Rfc3339 "2023-11-14T22:13:20Z") =
      Except.ok ⟨1700000000000000000, 0⟩ :=
  ⟨rfl, rfl⟩

/-- C6: `Age::parse_str` trims and parses a base-10 non-negative integer,
rejecting zero, values above 255, negative and non-numeric input: `"0"`,
`"256"`, `"-1"` and `"abc"` all fail with `InvalidAge`, `"255"` succeeds
with value 255, `" 42 "` succeeds with value 42, and every successful
parse yields a value in `[1, 255]`. -/
theorem c6_age_boundaries :
    Age.parse_str "0" = Except.error AclError.InvalidAge ∧
    (Age.parse_str "255").map Age.get = Except.ok 255 ∧
    Age.parse_str "256" = Except.error AclError.InvalidAge ∧
    Age.parse_str "-1" = Except.error AclError.InvalidAge ∧
    Age.parse_str "abc" = Except.error AclError.InvalidAge ∧
    (Age.parse_str " 42 ").map Age.get = Except.ok 42 ∧
    (∀ s a, Age.parse_str s = Except.ok a → 1 ≤ a.get ∧ a.get ≤ 255) :=
  ⟨rfl, rfl, rfl, rfl, rfl, rfl, fun _ a _ => ⟨a.one_le, a.le_255⟩⟩

/-- C6 witness: the bounds clause of the theorem applied at the concrete
successful parse of `" 42 "`. -/
theorem c6_age_boundaries_witness :
    1 ≤ Age.get ⟨42, by decide, by decide⟩ ∧
      Age.get ⟨42, by decide, by decide⟩ ≤ 255 :=
  c6_age_boundaries.2.2.2.2.2.2 " 42 " ⟨42, by decide, by decide⟩ rfl

/-- C7: `Username::new` fails with `UsernameEmpty` exactly when the input
trims to the empty string, and on success stores the original untrimmed
input; in particular `""` and `"   "` fail and `" a "` succeeds preserving
the text. -/
theorem c7_username_emptiness :
    (∀ s : String,
      Username.new s = Except.error AclError.UsernameEmpty ↔ rustTrim s = "") ∧
    (∀ s u, Username.new s = Except.ok u → u.as_str = s) ∧
    Username.new "" = Except.error AclError.UsernameEmpty ∧
    Username.new "   " = Except.error AclError.UsernameEmpty ∧
    (Username.new " a ").map Username.as_str = Except.ok " a " := by
  refine ⟨fun s => ?_, fun s u h => ?_, rfl, rfl, rfl⟩
  · by_cases h : rustTrim s = "" <;> simp [Username.new, h]
  · unfold Username.new at h
    split at h
    · exact absurd h (by simp)
    · cases h
      rfl

/-- C7 witness: the preservation clause of the theorem applied at the
concrete successful construction from `" a "`. -/
theorem c7_username_emptiness_witness : Username.as_str usernameA = " a " :=
  c7_username_emptiness.2.1 " a " usernameA rfl

/-- C4: whenever `user_name` is absent, `to_domain` fails with
`Missing("user_name")` no matter what the other three fields hold. -/
theorem c4_missing_username (dto : UserDto) (h : dto.user_name = none) :
    Acl.to_domain dto = Except.error (AclError.Missing "user_name") := by
  simp [Acl.to_domain, okOr, h]

/-- C4 witness: the theorem at a record missing `user_name` whose present
`email_address` is invalid — the error is `Missing("user_name")`, not
`InvalidEmail`. -/
theorem c4_missing_username_witness :
    Acl.to_domain
      { user_name := none, user_age := some "10"
      , email_address := some "not-an-email"
      , created_at := some (LooseTime.UnixSecs 0) } =
      Except.error (AclError.Missing "user_name") :=
  c4_missing_username _ rfl

/-- C5: with all four fields present, `to_domain` reports the error of the
first failing validator in the fixed order username, email, age,
timestamp; in particular a blank username yields `UsernameEmpty` no matter
what the other values are. -/
theorem c5_validation_order (n a e : String) (t : LooseTime) :
    (∀ err, Username.new n = Except.error err →
      Acl.to_domain ⟨some n, some a, some e, some t⟩ = Except.error err) ∧
    (∀ u err, Username.new n = Except.ok u →
      Email.parse e = Except.error err →
      Acl.to_domain ⟨some n, some a, some e, some t⟩ = Except.error err) ∧
    (∀ u em err, Username.new n = Except.ok u → Email.parse e = Except.ok em →
      Age.parse_str a = Except.error err →
      Acl.to_domain ⟨some n, some a, some e, some t⟩ = Except.error err) ∧
    (∀ u em ag err, Username.new n = Except.ok u →
      Email.parse e = Except.ok em → Age.parse_str a = Except.ok ag →
      parse_loose_time t = Except.error err →
      Acl.to_domain ⟨some n, some a, some e, some t⟩ = Except.error err) ∧
    (rustTrim n = "" →
      Acl.to_domain ⟨some n, some a, some e, some t⟩ =
        Except.error AclError.UsernameEmpty) := by
  refine ⟨fun err h1 => ?_, fun u err h1 h2 => ?_, fun u em err h1 h2 h3 => ?_,
    fun u em ag err h1 h2 h3 h4 => ?_, fun h0 => ?_⟩
  · simp [Acl.to_domain, okOr, h1]
  · simp [Acl.to_domain, okOr, h1, h2]
  · simp [Acl.to_domain, okOr, h1, h2, h3]
  · simp [Acl.to_domain, okOr, h1, h2, h3, h4]
  · simp [Acl.to_domain, okOr, Username.new, h0]

/-- C5 witness: the blank-username clause of the theorem at a record whose
username is whitespace and whose email is also invalid — the reported
error is `UsernameEmpty`, not `InvalidEmail`. -/
theorem c5_validation_order_witness :
    Acl.to_domain ⟨some "   ", some "10", some "not-an-email"
      , some (LooseTime.UnixSecs 0)⟩ =
      Except.error AclError.UsernameEmpty :=
  (c5_validation_order "   " "10" "not-an-email"
    (LooseTime.UnixSecs 0)).2.2.2.2 rfl

/-- C8: `to_dto` is total (no error path in its type) and produces a DTO
with all four fields `Some`: username and email verbatim, the age as its
decimal text, and the timestamp always as the `UnixSecs` variant of
`unix_timestamp()`. -/
theorem c8_to_dto_shape (u : User) :
    (Acl.to_dto u).user_name = some u.username.as_str ∧
    (Acl.to_dto u).email_address = some u.email.as_str ∧
    (Acl.to_dto u).user_age = some (u8_to_string u.age.get) ∧
    (Acl.to_dto u).created_at =
      some (LooseTime.UnixSecs u.created_at.unix_timestamp) :=
  ⟨rfl, rfl, rfl, rfl⟩

/-- C10 counterexample: the round trip is not `Ok` for every `User` the
Rust type can hold.  `userBoundary` satisfies the actual `OffsetDateTime`
invariant (`repOk`: boundary civil datetime `9999-12-31 23:59:59` at
offset `-01:00`), yet `to_dto` emits `UnixSecs(253402304399)`, which lies
beyond `from_unix_timestamp`'s range, so `to_domain` rejects the
regenerated record with `InvalidCreatedAt`. -/
theorem c10_counterexample :
    userBoundary.created_at.repOk ∧
    (Acl.to_dto userBoundary).created_at =
      some (LooseTime.UnixSecs 253402304399) ∧
    Acl.to_domain (Acl.to_dto userBoundary) =
      Except.error AclError.InvalidCreatedAt :=
  ⟨by decide, rfl, rfl⟩

/-- C10 (amended): the DTO that `to_dto` produces from a `User`
re-validates — `to_domain` accepts it — whenever the `User`'s instant lies
in the Unix range `from_unix_timestamp` accepts.  (The hypothesis is not
vacuous in Rust: the type bounds the local civil datetime, so boundary
instants stored with a non-UTC offset fall outside it, as the
counterexample shows; for every other `User` the round trip is `Ok`.) -/
theorem c10_roundtrip_revalidates (u : User) (h : u.created_at.instantInUnixRange) :
    ∃ u2, Acl.to_domain (Acl.to_dto u) = Except.ok u2 := by
  refine ⟨{ username := u.username, age := u.age, email := u.email
          , created_at := ⟨u.created_at.unix_timestamp * 1000000000, 0⟩ }, ?_⟩
  simp only [Acl.to_domain, Acl.to_dto, okOr, Username.as_str, Email.as_str,
    username_revalidates, email_revalidates, age_revalidates,
    created_revalidates u.created_at h]

/-- C10 witness: the amended theorem at a concrete `User` with a
sub-second instant inside the Unix range. -/
theorem c10_roundtrip_revalidates_witness :
    ∃ u2, Acl.to_domain (Acl.to_dto user1) = Except.ok u2 :=
  c10_roundtrip_revalidates user1 (by decide)

/-- C1 counterexample: for the `User` whose `created_at` is half a second
past the epoch, `to_dto` emits `UnixSecs(0)`, which resolves to the epoch
instant — not value-equal to the original sub-second instant, so the
round trip does not preserve the instant exactly for sub-second values. -/
theorem c1_counterexample :
    (Acl.to_dto user0).created_at = some (LooseTime.UnixSecs 0) ∧
    parse_loose_time (LooseTime.UnixSecs 0) = Except.ok ⟨0, 0⟩ ∧
    ¬ OffsetDateTime.instantEq ⟨0, 0⟩ user0.created_at :=
  ⟨rfl, rfl, by decide⟩

/-- C1 (amended): for every `User` whose `created_at` is a whole-second
instant (sub-second part zero) lying in the Unix range
`from_unix_timestamp` accepts, resolving the `created_at` of the produced
DTO succeeds and yields an instant value-equal to the original (the
stored offset may be non-UTC: equality compares instants).  Sub-second
instants come back truncated to the whole second, and the boundary
instants the Rust type can hold outside the Unix range (such as the
`created_at` of `userBoundary`) fail to resolve at all. -/
theorem c1_roundtrip_whole_seconds (u : User) (hv : u.created_at.instantInUnixRange)
    (hw : u.created_at.utcNanos % 1000000000 = 0) :
    ∃ t d, (Acl.to_dto u).created_at = some t ∧
      parse_loose_time t = Except.ok d ∧ d.instantEq u.created_at := by
  refine ⟨LooseTime.UnixSecs u.created_at.unix_timestamp,
    ⟨u.created_at.unix_timestamp * 1000000000, 0⟩, rfl,
    created_revalidates u.created_at hv, ?_⟩
  show u.created_at.unix_timestamp * 1000000000 = u.created_at.utcNanos
  unfold OffsetDateTime.unix_timestamp
  rw [Int.fdiv_eq_ediv _ (by norm_num)]
  exact Int.ediv_mul_cancel (Int.dvd_of_emod_eq_zero hw)

/-- C1 witness: the amended theorem at a concrete whole-second `User`
stored with a non-UTC offset. -/
theorem c1_roundtrip_whole_seconds_witness :
    ∃ t d, (Acl.to_dto user2).created_at = some t ∧
      parse_loose_time t = Except.ok d ∧ d.instantEq user2.created_at :=
  c1_roundtrip_whole_seconds user2 (by decide) (by decide)

end VO
